import Mathlib

/-!
# Verification of `hltv.py` (`CounterScrape`)

Shallow embedding of the single source file `hltv.py`.  The program fetches
the HLTV results page, filters DOM nodes to the result containers whose
embedded Unix-millisecond timestamp falls on the captured current date,
extracts per-match fields, and serializes the resulting `OrderedDict` to
JSON text.

Modelling choices (all driven by the source, `hltv.py`):

* A DOM tag (`Tag`) carries exactly the pieces of a result container the
  code reads: the tag name, its class list (`tag.get('class', [])` yields
  `[]` when the attribute is missing, so a plain list models it), the
  optional `data-zonedgrouping-entry-unix` attribute (`tag[...]` raises
  `KeyError` when absent, hence `Option`), the text of the `.team1`,
  `.team2`, `.result-score`, `.event-name` and `.map-text` sub-elements,
  and the optional `href` of the `.a-reset` link.
* The ambient effects are collected in `Env`:
  - `dayOf` models `strftime('%d %B %Y', localtime(ms / 1000))` as an
    abstract function of the parsed millisecond integer
    (`convert_timestamp` in the source),
  - `currentDate` models `self.current_date` captured at construction,
  - `mapsPage href` models the list of `div.mapname` texts, in document
    order, obtained by `self.scrape(self.url + href, 'mapname')`
    (HTTP transport errors are outside the modelled fragment).
* A results document is the list of tags inspected by
  `soup(self.check_match_date)` on the strained results page.
* Python exceptions are modelled with `Except PyErr`.
* `OrderedDict` is modelled as an association list with the `od[k] = v`
  assignment semantics: an existing key keeps its position and gets the
  new value, a new key is appended (`odInsert`).
* `json.dumps` / `json.loads(·, object_pairs_hook=OrderedDict)` are
  modelled at the level of the JSON tree (`Json`): the textual encode /
  parse pair of the `json` library is an external collaborator and is the
  identity on the tree.
-/

namespace HLTV

/-- Python exceptions raised by the modelled fragment of `hltv.py`. -/
inductive PyErr where
  | keyError
  | valueError
  | indexError
deriving DecidableEq, Repr

/-- A DOM tag restricted to the pieces `hltv.py` reads from it. -/
structure Tag where
  name : String
  classes : List String
  attrUnix : Option String
  team1 : String
  team2 : String
  resultScore : String
  eventName : String
  mapText : String
  href : Option String
deriving DecidableEq, Repr

/-- One value of the per-match dictionary built in `get_results`
(lines 82-89 of `hltv.py`).  Every field is a Python `str` there. -/
structure MatchRecord where
  team_one : String
  team_one_score : String
  team_two : String
  team_two_score : String
  event : String
  maps : String
deriving DecidableEq, Repr

/-- The ambient state of a `CounterScrape` instance: the day-formatting
function composed inside `convert_timestamp`, the captured
`self.current_date`, and the map names found on each detail page. -/
structure Env where
  dayOf : Int → String
  currentDate : String
  mapsPage : String → List String

/-! ## Python string primitives -/

/-- Helper for `pySplit`: walk the characters, accumulating the current
token reversed. -/
def pySplitAux : List Char → List Char → List String
  | [], acc => if acc.isEmpty then [] else [String.mk acc.reverse]
  | c :: cs, acc =>
    if c.isWhitespace then
      if acc.isEmpty then pySplitAux cs []
      else String.mk acc.reverse :: pySplitAux cs []
    else pySplitAux cs (c :: acc)

/-- Python `str.split()` with no argument: split on runs of whitespace,
discarding empty tokens. -/
def pySplit (s : String) : List String := pySplitAux s.toList []

/-- Python `str.strip()` / BeautifulSoup `get_text(strip=True)` on a
single text node: drop leading and trailing whitespace. -/
def pyStrip (s : String) : String :=
  String.mk (((s.toList.dropWhile Char.isWhitespace).reverse.dropWhile
    Char.isWhitespace).reverse)

/-- Decimal value of a digit list. -/
def digitsVal (l : List Char) : Nat :=
  l.foldl (fun n c => n * 10 + (c.toNat - 48)) 0

/-- Python `int(s)` on a string: optional surrounding whitespace, optional
sign, then at least one decimal digit; anything else raises `ValueError`
(modelled as `none`). -/
def pyInt (s : String) : Option Int :=
  match ((s.toList.dropWhile Char.isWhitespace).reverse.dropWhile
      Char.isWhitespace).reverse with
  | '-' :: core =>
    if core ≠ [] ∧ core.all Char.isDigit then some (-(digitsVal core : Int))
    else none
  | '+' :: core =>
    if core ≠ [] ∧ core.all Char.isDigit then some ((digitsVal core : Int))
    else none
  | core =>
    if core ≠ [] ∧ core.all Char.isDigit then some ((digitsVal core : Int))
    else none

/-- Substring test on character lists: `containsSub needle hay`. -/
def containsSub (needle : List Char) : List Char → Bool
  | [] => needle.isEmpty
  | c :: t => needle.isPrefixOf (c :: t) || containsSub needle t

/-- Python `needle in hay` on strings (substring containment). -/
def pyInStr (needle hay : String) : Bool :=
  containsSub needle.toList hay.toList

/-- `' '.join l`, as used on the truncated map list in `get_maps`. -/
def joinSpace : List String → String
  | [] => ""
  | [x] => x
  | x :: y :: xs => x ++ " " ++ joinSpace (y :: xs)

/-- Python list slice `xs[:n]`: a nonnegative stop takes a prefix, a
negative stop counts from the end, clipping at zero. -/
def pySliceTo (xs : List String) (n : Int) : List String :=
  if 0 ≤ n then xs.take n.toNat else xs.take ((xs.length : Int) + n).toNat

/-! ## The scraper, line by line -/

/-- `CounterScrape.MAPS` (lines 19-31): the abbreviation table, in source
order. -/
def MAPS : List (String × String) :=
  [("mrg", "Mirage"), ("trn", "Train"), ("ovp", "Overpass"),
   ("inf", "Inferno"), ("cch", "Cache"), ("cbl", "Cobblestone"),
   ("nuke", "Nuke"), ("bo2", "Best-of-two "), ("bo3", "Best-of-three "),
   ("bo5", "Best-of-five "), ("-", "Default win")]

/-- `self.MAPS[k]`: dictionary lookup; `none` models the `KeyError`. -/
def mapsLookup (k : String) : Option String :=
  (MAPS.find? (fun p => p.1 == k)).map Prod.snd

/-- `convert_timestamp` (lines 10-14): parse the attribute string with
`int` (raising `ValueError` on junk) and format the resulting
millisecond count as a calendar-day string via `env.dayOf`. -/
def convert_timestamp (env : Env) (timestamp : String) : Except PyErr String :=
  match pyInt timestamp with
  | none => Except.error PyErr.valueError
  | some ms => Except.ok (env.dayOf ms)

/-- `check_match_date` (lines 54-60): a tag passes iff it is a `div`
carrying the `result-con` class and its timestamp attribute converts to
the captured current date.  The attribute is read only after the
structural check; a `result-con` div without it raises `KeyError`. -/
def check_match_date (env : Env) (tag : Tag) : Except PyErr Bool :=
  if tag.name == "div" && tag.classes.contains "result-con" then
    match tag.attrUnix with
    | none => Except.error PyErr.keyError
    | some timestamp =>
      match convert_timestamp env timestamp with
      | Except.error e => Except.error e
      | Except.ok d => Except.ok (d == env.currentDate)
  else
    Except.ok false

/-- A tag the filter retains: `check_match_date` returns `True`. -/
def isMatch (env : Env) (tag : Tag) : Bool :=
  match check_match_date env tag with
  | Except.ok true => true
  | _ => false

/-- The number of tags of the document that pass the date filter. -/
def countMatching (env : Env) (doc : List Tag) : Nat :=
  (doc.filter (isMatch env)).length

/-- `soup(self.check_match_date)` (line 66): evaluate the predicate on
every tag of the strained document, propagating any exception it raises. -/
def filterRetained (env : Env) : List Tag → Except PyErr (List Tag)
  | [] => Except.ok []
  | t :: ts =>
    match check_match_date env t with
    | Except.error e => Except.error e
    | Except.ok b =>
      match filterRetained env ts with
      | Except.error e => Except.error e
      | Except.ok rest => Except.ok (if b then t :: rest else rest)

/-- `get_maps` (lines 46-52): fetch the detail page, take the first
`maps_played` map names (Python slice) and join them with single spaces. -/
def get_maps (env : Env) (href : String) (maps_played : Int) : String :=
  joinSpace (pySliceTo (env.mapsPage href) maps_played)

/-- The body of the `get_results` loop (lines 67-89) for one retained tag:
extract the timestamp key and the six record fields.  The `maps` field is
the follow-up `get_maps` fetch when the raw text contains `"bo"`, and the
abbreviation-table lookup otherwise. -/
def extractRecord (env : Env) (result : Tag) : Except PyErr (String × MatchRecord) :=
  match result.attrUnix with
  | none => Except.error PyErr.keyError
  | some timestamp =>
    let team_one := pyStrip result.team1
    let team_two := pyStrip result.team2
    let score := pySplit result.resultScore
    match score.head?, score.getLast? with
    | some team_one_score, some team_two_score =>
      let mapsStep : Except PyErr String :=
        if pyInStr "bo" result.mapText then
          match result.href with
          | none => Except.error PyErr.keyError
          | some hrefVal =>
            match pyInt team_one_score, pyInt team_two_score with
            | some s1, some s2 => Except.ok (get_maps env hrefVal (s1 + s2))
            | _, _ => Except.error PyErr.valueError
        else
          match mapsLookup result.mapText with
          | none => Except.error PyErr.keyError
          | some m => Except.ok m
      mapsStep.map (fun maps =>
        (timestamp,
          { team_one := team_one, team_one_score := team_one_score,
            team_two := team_two, team_two_score := team_two_score,
            event := result.eventName, maps := maps }))
    | _, _ => Except.error PyErr.indexError

/-- `OrderedDict` assignment `od[k] = v`: an existing key keeps its
position and receives the new value, a fresh key is appended. -/
def odInsert : List (String × MatchRecord) → String → MatchRecord →
    List (String × MatchRecord)
  | [], k, v => [(k, v)]
  | p :: rest, k, v =>
    if p.1 == k then (k, v) :: rest else p :: odInsert rest k v

/-- `odInsert` uncurried, for folds. -/
def odStep (od : List (String × MatchRecord)) (p : String × MatchRecord) :
    List (String × MatchRecord) :=
  odInsert od p.1 p.2

/-- Dictionary lookup `od[k]` on the association list. -/
def odLookup (od : List (String × MatchRecord)) (k : String) :
    Option MatchRecord :=
  (od.find? (fun p => p.1 == k)).map Prod.snd

/-- The `for result in soup(...)` loop of `get_results`: extract each
retained tag and assign into the ordered dictionary, stopping at the
first exception. -/
def buildResults (env : Env) (od : List (String × MatchRecord)) :
    List Tag → Except PyErr (List (String × MatchRecord))
  | [] => Except.ok od
  | t :: ts =>
    match extractRecord env t with
    | Except.error e => Except.error e
    | Except.ok (k, r) => buildResults env (odInsert od k r) ts

/-- `get_results` (lines 62-90) up to the final `json.dumps`: the ordered
match dictionary for the given document, or the first exception raised. -/
def get_results (env : Env) (doc : List Tag) :
    Except PyErr (List (String × MatchRecord)) :=
  match filterRetained env doc with
  | Except.error e => Except.error e
  | Except.ok retained => buildResults env [] retained

/-- `extractRecord` mapped over a tag list, stopping at the first
exception; the pure extraction content of the loop. -/
def mapExtract (env : Env) : List Tag → Except PyErr (List (String × MatchRecord))
  | [] => Except.ok []
  | t :: ts =>
    match extractRecord env t with
    | Except.error e => Except.error e
    | Except.ok p =>
      match mapExtract env ts with
      | Except.error e => Except.error e
      | Except.ok rest => Except.ok (p :: rest)

/-! ## JSON serialization (`json.dumps` / `results_dict`) -/

/-- The JSON tree produced by `json.dumps` and consumed by `json.loads`. -/
inductive Json where
  | str : String → Json
  | num : Int → Json
  | obj : List (String × Json) → Json

/-- `some s` iff the node is a JSON string. -/
def Json.asStr : Json → Option String
  | Json.str s => some s
  | _ => none

/-- Whether the node is a JSON number. -/
def Json.isNum : Json → Bool
  | Json.num _ => true
  | _ => false

/-- Field access inside a JSON object. -/
def jsonField : Json → String → Option Json
  | Json.obj l, k => (l.find? (fun p => p.1 == k)).map Prod.snd
  | _, _ => none

/-- `json.dumps` on one match record: every field of the Python dict is a
`str`, so every value serializes as a JSON string, in insertion order. -/
def encodeRecord (r : MatchRecord) : Json :=
  Json.obj
    [("team_one", Json.str r.team_one),
     ("team_one_score", Json.str r.team_one_score),
     ("team_two", Json.str r.team_two),
     ("team_two_score", Json.str r.team_two_score),
     ("event", Json.str r.event),
     ("maps", Json.str r.maps)]

/-- One serialized entry of the results dictionary. -/
def encPair (p : String × MatchRecord) : String × Json :=
  (p.1, encodeRecord p.2)

/-- `json.dumps(match_results, ...)` (line 90) as a JSON tree: the keys
are the timestamp strings, in dictionary order. -/
def encodeResults (od : List (String × MatchRecord)) : Json :=
  Json.obj (od.map encPair)

/-- Decode one serialized match record back to its fields. -/
def decodeRecord : Json → Option MatchRecord
  | Json.obj
      [("team_one", Json.str a), ("team_one_score", Json.str b),
       ("team_two", Json.str c), ("team_two_score", Json.str d),
       ("event", Json.str e), ("maps", Json.str f)] =>
    some { team_one := a, team_one_score := b, team_two := c,
           team_two_score := d, event := e, maps := f }
  | _ => none

/-- Decode the members of a serialized results object, in text order. -/
def decodePairs : List (String × Json) → Option (List (String × MatchRecord))
  | [] => some []
  | (k, j) :: rest =>
    match decodeRecord j, decodePairs rest with
    | some r, some prs => some ((k, r) :: prs)
    | _, _ => none

/-- `json.loads(·, object_pairs_hook=OrderedDict)` on a serialized results
tree: decode the pairs and rebuild the ordered dictionary with the
`OrderedDict` assignment semantics. -/
def decodeResults (j : Json) : Option (List (String × MatchRecord)) :=
  match j with
  | Json.obj l => (decodePairs l).map (fun prs => prs.foldl odStep [])
  | _ => none

/-- `results_dict` (lines 92-94): re-run `get_results`, serialize and
parse back. -/
def results_dict (env : Env) (doc : List Tag) :
    Except PyErr (Option (List (String × MatchRecord))) :=
  match get_results env doc with
  | Except.error e => Except.error e
  | Except.ok od => Except.ok (decodeResults (encodeResults od))

/-! ## Structural lemmas about the embedding -/

deriving instance DecidableEq for Except

/-- `check_match_date` determines `isMatch`. -/
theorem isMatch_of_check {env : Env} {t : Tag} {b : Bool}
    (h : check_match_date env t = Except.ok b) : isMatch env t = b := by
  cases b <;> simp [isMatch, h]

/-- A successful `mapExtract` run relates tags and extracted pairs
pointwise, in order. -/
theorem mapExtract_forall2 {env : Env} :
    ∀ {ts : List Tag} {krs : List (String × MatchRecord)},
      mapExtract env ts = Except.ok krs →
      List.Forall₂ (fun t p => extractRecord env t = Except.ok p) ts krs := by
  intro ts
  induction ts with
  | nil =>
    intro krs h
    simp only [mapExtract, Except.ok.injEq] at h
    subst h
    exact List.Forall₂.nil
  | cons t ts ih =>
    intro krs h
    simp only [mapExtract] at h
    cases h1 : extractRecord env t with
    | error e => rw [h1] at h; exact absurd h (by simp)
    | ok p =>
      rw [h1] at h
      cases h2 : mapExtract env ts with
      | error e => rw [h2] at h; exact absurd h (by simp)
      | ok rest =>
        rw [h2] at h
        simp only [Except.ok.injEq] at h
        subst h
        exact List.Forall₂.cons h1 (ih h2)

/-- A successful loop run is a successful pure extraction followed by a
fold of ordered-dictionary assignments. -/
theorem buildResults_ok {env : Env} :
    ∀ {ts : List Tag} {od res : List (String × MatchRecord)},
      buildResults env od ts = Except.ok res →
      ∃ krs, mapExtract env ts = Except.ok krs ∧ res = krs.foldl odStep od := by
  intro ts
  induction ts with
  | nil =>
    intro od res h
    simp only [buildResults, Except.ok.injEq] at h
    exact ⟨[], rfl, h.symm⟩
  | cons t ts ih =>
    intro od res h
    simp only [buildResults] at h
    cases h1 : extractRecord env t with
    | error e => rw [h1] at h; exact absurd h (by simp)
    | ok p =>
      obtain ⟨k, r⟩ := p
      rw [h1] at h
      obtain ⟨krs, hmap, hres⟩ := ih h
      exact ⟨(k, r) :: krs, by simp [mapExtract, h1, hmap], by simpa [odStep] using hres⟩

/-- A successful filtering pass retains exactly the tags whose
`check_match_date` evaluates to `True`. -/
theorem filterRetained_ok {env : Env} :
    ∀ {doc ret : List Tag}, filterRetained env doc = Except.ok ret →
      ret = doc.filter (isMatch env) := by
  intro doc
  induction doc with
  | nil =>
    intro ret h
    simp only [filterRetained, Except.ok.injEq] at h
    simp [h.symm]
  | cons t ts ih =>
    intro ret h
    simp only [filterRetained] at h
    cases h1 : check_match_date env t with
    | error e => rw [h1] at h; exact absurd h (by simp)
    | ok b =>
      rw [h1] at h
      cases h2 : filterRetained env ts with
      | error e => rw [h2] at h; exact absurd h (by simp)
      | ok rest =>
        rw [h2] at h
        simp only [Except.ok.injEq] at h
        subst h
        rw [List.filter_cons, isMatch_of_check h1, ih h2]

/-- Specification of a successful `get_results` run: the retained tags
are the date-filtered document, their extraction succeeds, and the
dictionary is the fold of assignments over the extracted pairs. -/
theorem get_results_ok {env : Env} {doc : List Tag}
    {od : List (String × MatchRecord)} (h : get_results env doc = Except.ok od) :
    ∃ krs, mapExtract env (doc.filter (isMatch env)) = Except.ok krs ∧
      od = krs.foldl odStep [] := by
  rw [get_results] at h
  cases h1 : filterRetained env doc with
  | error e => rw [h1] at h; exact absurd h (by simp)
  | ok retained =>
    rw [h1] at h
    rw [filterRetained_ok h1] at h
    exact buildResults_ok h

/-- Each left member of a `Forall₂` pairing has a related right member. -/
theorem forall2_mem_left {R : Tag → (String × MatchRecord) → Prop} :
    ∀ {ts : List Tag} {krs : List (String × MatchRecord)} {t : Tag},
      List.Forall₂ R ts krs → t ∈ ts → ∃ p, p ∈ krs ∧ R t p := by
  intro ts
  induction ts with
  | nil => intro krs t h hm; cases hm
  | cons a as ih =>
    intro krs t h hm
    cases h with
    | cons hab htail =>
      rcases List.mem_cons.mp hm with h1 | h1
      · exact ⟨_, List.mem_cons_self .., h1 ▸ hab⟩
      · obtain ⟨p, hp1, hp2⟩ := ih htail h1
        exact ⟨p, List.mem_cons_of_mem _ hp1, hp2⟩

/-- Each right member of a `Forall₂` pairing has a related left member. -/
theorem forall2_mem_right {R : Tag → (String × MatchRecord) → Prop} :
    ∀ {ts : List Tag} {krs : List (String × MatchRecord)} {p : String × MatchRecord},
      List.Forall₂ R ts krs → p ∈ krs → ∃ t, t ∈ ts ∧ R t p := by
  intro ts
  induction ts with
  | nil => intro krs p h hm; cases h; cases hm
  | cons a as ih =>
    intro krs p h hm
    cases h with
    | cons hab htail =>
      rcases List.mem_cons.mp hm with h1 | h1
      · exact ⟨a, List.mem_cons_self .., h1 ▸ hab⟩
      · obtain ⟨t, ht1, ht2⟩ := ih htail h1
        exact ⟨t, List.mem_cons_of_mem _ ht1, ht2⟩

/-- Transport a pointwise function equality along a `Forall₂` pairing. -/
theorem forall2_map_eq {R : Tag → (String × MatchRecord) → Prop}
    {f : Tag → String} {g : String × MatchRecord → String}
    (hfg : ∀ a b, R a b → f a = g b) :
    ∀ {ts : List Tag} {krs : List (String × MatchRecord)},
      List.Forall₂ R ts krs → ts.map f = krs.map g := by
  intro ts
  induction ts with
  | nil => intro krs h; cases h; rfl
  | cons a as ih =>
    intro krs h
    cases h with
    | cons hab htail => simp [hfg _ _ hab, ih htail]

/-! ## Ordered-dictionary lemmas -/

/-- Keys after an assignment: unchanged for an existing key, appended for
a fresh one. -/
theorem odInsert_fst (k : String) (v : MatchRecord)
    (od : List (String × MatchRecord)) :
    (odInsert od k v).map Prod.fst =
      if k ∈ od.map Prod.fst then od.map Prod.fst
      else od.map Prod.fst ++ [k] := by
  induction od with
  | nil => simp [odInsert]
  | cons p rest ih =>
    by_cases hp : p.1 = k
    · simp [odInsert, hp]
    · have hbeq : (p.1 == k) = false := by simpa using hp
      have hkp : ¬ k = p.1 := fun he => hp he.symm
      simp only [odInsert, hbeq, Bool.false_eq_true, if_false, List.map_cons,
        ih, List.mem_cons]
      by_cases hm : k ∈ rest.map Prod.fst
      · simp [hm, hkp]
      · simp [hm, hkp]

/-- Assigning a fresh key appends the pair. -/
theorem odInsert_of_not_mem {k : String} {v : MatchRecord}
    {od : List (String × MatchRecord)} (h : k ∉ od.map Prod.fst) :
    odInsert od k v = od ++ [(k, v)] := by
  induction od with
  | nil => simp [odInsert]
  | cons p rest ih =>
    simp only [List.map_cons, List.mem_cons] at h
    push_neg at h
    have hbeq : (p.1 == k) = false := by simpa using fun he => h.1 he.symm
    simp [odInsert, hbeq, ih h.2]

/-- Folding assignments with pairwise-fresh keys appends the pairs in
order. -/
theorem odFold_append :
    ∀ (krs : List (String × MatchRecord)) (acc : List (String × MatchRecord)),
      (krs.map Prod.fst).Nodup →
      (∀ x ∈ krs.map Prod.fst, x ∉ acc.map Prod.fst) →
      krs.foldl odStep acc = acc ++ krs := by
  intro krs
  induction krs with
  | nil => intro acc h1 h2; simp
  | cons p rest ih =>
    intro acc h1 h2
    simp only [List.map_cons, List.nodup_cons] at h1
    have hpk : p.1 ∉ acc.map Prod.fst := h2 p.1 (by simp)
    have hstep : odStep acc p = acc ++ [(p.1, p.2)] := odInsert_of_not_mem hpk
    rw [List.foldl_cons, hstep, ih (acc ++ [(p.1, p.2)]) h1.2]
    · simp
    · intro x hx
      have hx2 : x ∈ (p :: rest).map Prod.fst := by simp [hx]
      intro hmem
      rw [List.map_append] at hmem
      rcases List.mem_append.mp hmem with hxa | hxp
      · exact h2 x hx2 hxa
      · have hxp2 : x = p.1 := by simpa using hxp
        exact h1.1 (hxp2 ▸ hx)

/-- Assignment preserves key distinctness. -/
theorem odInsert_nodup {od : List (String × MatchRecord)} {k : String}
    {v : MatchRecord} (h : (od.map Prod.fst).Nodup) :
    ((odInsert od k v).map Prod.fst).Nodup := by
  rw [odInsert_fst]
  by_cases hm : k ∈ od.map Prod.fst
  · simpa [hm]
  · simp [hm, List.nodup_append, h, List.disjoint_singleton]

/-- A fold of assignments preserves key distinctness. -/
theorem odFold_nodup :
    ∀ (krs : List (String × MatchRecord)) (acc : List (String × MatchRecord)),
      (acc.map Prod.fst).Nodup → ((krs.foldl odStep acc).map Prod.fst).Nodup := by
  intro krs
  induction krs with
  | nil => intro acc h; simpa
  | cons p rest ih =>
    intro acc h
    exact ih (odStep acc p) (odInsert_nodup h)

/-- Every entry of the dictionary after an assignment is the assigned
pair or an original entry. -/
theorem odInsert_mem {od : List (String × MatchRecord)} {k : String}
    {v : MatchRecord} {q : String × MatchRecord} (h : q ∈ odInsert od k v) :
    q = (k, v) ∨ q ∈ od := by
  induction od with
  | nil => simpa [odInsert] using h
  | cons p rest ih =>
    by_cases hp : p.1 = k
    · have hbeq : (p.1 == k) = true := by simpa using hp
      simp only [odInsert, hbeq, if_true] at h
      rcases List.mem_cons.mp h with h1 | h1
      · exact Or.inl h1
      · exact Or.inr (List.mem_cons_of_mem _ h1)
    · have hbeq : (p.1 == k) = false := by simpa using hp
      simp only [odInsert, hbeq, Bool.false_eq_true, if_false] at h
      rcases List.mem_cons.mp h with h1 | h1
      · exact Or.inr (h1 ▸ List.mem_cons_self ..)
      · rcases ih h1 with h2 | h2
        · exact Or.inl h2
        · exact Or.inr (List.mem_cons_of_mem _ h2)

/-- Every entry of a fold of assignments comes from the start dictionary
or from the assigned pairs. -/
theorem odFold_mem :
    ∀ {krs acc : List (String × MatchRecord)} {q : String × MatchRecord},
      q ∈ krs.foldl odStep acc → q ∈ acc ∨ q ∈ krs := by
  intro krs
  induction krs with
  | nil => intro acc q h; exact Or.inl (by simpa using h)
  | cons p rest ih =>
    intro acc q h
    rw [List.foldl_cons] at h
    rcases ih h with h1 | h1
    · rcases odInsert_mem h1 with h2 | h2
      · exact Or.inr (by simp [h2])
      · exact Or.inl h2
    · exact Or.inr (List.mem_cons_of_mem _ h1)

/-- Lookup after an assignment: the assigned key now maps to the new
value, every other key is untouched. -/
theorem odLookup_insert (od : List (String × MatchRecord)) (k : String)
    (v : MatchRecord) (k2 : String) :
    odLookup (odInsert od k v) k2 = if k2 = k then some v else odLookup od k2 := by
  induction od with
  | nil =>
    by_cases h : k2 = k
    · simp [odInsert, odLookup, List.find?, h]
    · have hbeq : (k == k2) = false := by simpa using fun he => h he.symm
      simp [odInsert, odLookup, List.find?, hbeq, h]
  | cons p rest ih =>
    by_cases hp : p.1 = k
    · have hbeq : (p.1 == k) = true := by simpa using hp
      by_cases h2 : k2 = k
      · have hkk : (k == k2) = true := by simpa using h2.symm
        simp [odInsert, odLookup, List.find?, hbeq, hkk, h2]
      · have hkk : (k == k2) = false := by simpa using fun he => h2 he.symm
        have hpk2 : (p.1 == k2) = false := by simpa using fun he => h2 (hp ▸ he).symm
        simp [odInsert, odLookup, List.find?, hbeq, hkk, hpk2, h2]
    · have hbeq : (p.1 == k) = false := by simpa using hp
      by_cases h3 : p.1 = k2
      · have hk2k : ¬ k2 = k := fun he => hp (h3.symm ▸ he)
        have hpk2 : (p.1 == k2) = true := by simpa using h3
        simp [odInsert, odLookup, List.find?, hbeq, hpk2, hk2k]
      · have hpk2 : (p.1 == k2) = false := by simpa using h3
        simp only [odInsert, hbeq, Bool.false_eq_true, if_false]
        simp only [odLookup, List.find?, hpk2] at *
        exact ih

/-- Lookup after a fold of assignments: the last assigned pair with the
key wins; keys never assigned fall back to the start dictionary. -/
theorem odFold_lookup :
    ∀ (krs acc : List (String × MatchRecord)) (k : String),
      odLookup (krs.foldl odStep acc) k =
        match krs.reverse.find? (fun p => p.1 == k) with
        | some p => some p.2
        | none => odLookup acc k := by
  intro krs
  induction krs with
  | nil => intro acc k; simp
  | cons p rest ih =>
    intro acc k
    rw [List.foldl_cons, ih (odStep acc p) k]
    have hstep : odLookup (odStep acc p) k =
        if k = p.1 then some p.2 else odLookup acc k := odLookup_insert ..
    rw [List.reverse_cons, List.find?_append]
    cases hf : rest.reverse.find? (fun q => q.1 == k) with
    | some q => simp
    | none =>
      by_cases hk : p.1 = k
      · have hb : (p.1 == k) = true := by simpa using hk
        subst hk
        simp [List.find?, hb, hstep]
      · have hb : (p.1 == k) = false := by simpa using hk
        have hkp : ¬ k = p.1 := fun he => hk he.symm
        simp [List.find?, hb, hstep, hkp]

/-! ## Extraction lemmas -/

/-- Inversion of `Except.map` hitting a success value. -/
theorem exceptMap_ok {X : Except PyErr String}
    {f : String → String × MatchRecord} {y : String × MatchRecord}
    (h : X.map f = Except.ok y) : ∃ m, X = Except.ok m ∧ f m = y := by
  cases X with
  | error e => exact absurd h (by simp [Except.map])
  | ok m => exact ⟨m, rfl, by simpa [Except.map] using h⟩

/-- Inversion of a successful single-match extraction: the key is the
timestamp attribute, the team fields are the stripped team texts, the
score fields are the first and last whitespace token of the score blob,
and the event field is the event text. -/
theorem extract_ok_inv {env : Env} {t : Tag} {k : String} {r : MatchRecord}
    (h : extractRecord env t = Except.ok (k, r)) :
    t.attrUnix = some k ∧ r.team_one = pyStrip t.team1 ∧
      r.team_two = pyStrip t.team2 ∧
      (pySplit t.resultScore).head? = some r.team_one_score ∧
      (pySplit t.resultScore).getLast? = some r.team_two_score ∧
      r.event = t.eventName := by
  cases ha : t.attrUnix with
  | none => rw [extractRecord, ha] at h; exact absurd h (by simp)
  | some ts =>
    cases hh : (pySplit t.resultScore).head? with
    | none =>
      cases hl : (pySplit t.resultScore).getLast? with
      | none => simp [extractRecord, ha, hh, hl] at h
      | some tok2 => simp [extractRecord, ha, hh, hl] at h
    | some tok1 =>
      cases hl : (pySplit t.resultScore).getLast? with
      | none => simp [extractRecord, ha, hh, hl] at h
      | some tok2 =>
        simp only [extractRecord, ha, hh, hl] at h
        obtain ⟨m, hX, hf⟩ := exceptMap_ok h
        injection hf with hk hr
        subst hk
        subst hr
        exact ⟨rfl, rfl, rfl, rfl, rfl, rfl⟩

/-- A retained tag whose raw maps text lacks `"bo"` and is not an
abbreviation-table key can never extract successfully: the lookup raises
`KeyError` (unless an earlier field access failed first). -/
theorem extract_unknown_not_ok {env : Env} {t : Tag}
    (h1 : pyInStr "bo" t.mapText = false)
    (h2 : mapsLookup t.mapText = none) (p : String × MatchRecord) :
    extractRecord env t ≠ Except.ok p := by
  intro h
  cases ha : t.attrUnix with
  | none => simp [extractRecord, ha] at h
  | some ts =>
    cases hh : (pySplit t.resultScore).head? with
    | none =>
      cases hl : (pySplit t.resultScore).getLast? with
      | none => simp [extractRecord, ha, hh, hl] at h
      | some tok2 => simp [extractRecord, ha, hh, hl] at h
    | some tok1 =>
      cases hl : (pySplit t.resultScore).getLast? with
      | none => simp [extractRecord, ha, hh, hl] at h
      | some tok2 => simp [extractRecord, ha, hh, hl, h1, h2, Except.map] at h

/-- The dictionary a successful run returns has pairwise-distinct keys. -/
theorem get_results_nodup {env : Env} {doc : List Tag}
    {od : List (String × MatchRecord)}
    (h : get_results env doc = Except.ok od) : (od.map Prod.fst).Nodup := by
  obtain ⟨krs, hmap, hod⟩ := get_results_ok h
  rw [hod]
  exact odFold_nodup krs [] (by simp)

/-! ## JSON round-trip lemmas -/

/-- Decoding the encoded entry list recovers the entries, in order. -/
theorem decodePairs_enc : ∀ od : List (String × MatchRecord),
    decodePairs (od.map encPair) = some od := by
  intro od
  induction od with
  | nil => rfl
  | cons p rest ih =>
    obtain ⟨k, r⟩ := p
    have hr : decodeRecord (encodeRecord r) = some r := by cases r; rfl
    simp [encPair, decodePairs, hr, ih]

/-- Serialization round-trip on a dictionary with distinct keys. -/
theorem decode_encode {od : List (String × MatchRecord)}
    (h : (od.map Prod.fst).Nodup) :
    decodeResults (encodeResults od) = some od := by
  simp only [decodeResults, encodeResults, decodePairs_enc, Option.map_some']
  rw [odFold_append od [] h (by simp)]
  simp

/-! ## Concrete scenario data -/

/-- Scenario environment: every timestamp falls on the captured date. -/
def c1Env : Env :=
  { dayOf := fun _ => "12 October 2026", currentDate := "12 October 2026",
    mapsPage := fun _ => [] }

/-- Scenario tag: a matching result container with a known-map code. -/
def c1Tag : Tag :=
  { name := "div", classes := ["result-con"], attrUnix := some "1000",
    team1 := "A", team2 := "B", resultScore := "16 : 9",
    eventName := "E", mapText := "mrg", href := none }

/-- Record extracted from `c1Tag`. -/
def c1Rec : MatchRecord :=
  { team_one := "A", team_one_score := "16", team_two := "B",
    team_two_score := "9", event := "E", maps := "Mirage" }

/-- Variant of `c1Tag` with a distinct timestamp. -/
def c1TagB : Tag := { c1Tag with attrUnix := some "2000" }

/-- The timestamp attribute a tag carries (retained tags always have
one, so the default is never read off a retained tag). -/
def tagKey (t : Tag) : String := t.attrUnix.getD ""

/-! ## Claims -/

/-- **C1, counterexample.**  The claim says the size of the returned
collection always equals the number of matching result-container nodes.
On a document with two matching nodes sharing the timestamp `"1000"`,
`get_results` keys the `OrderedDict` by timestamp and collapses them:
the collection has one entry while two nodes match. -/
theorem C1_counterexample :
    get_results c1Env [c1Tag, c1Tag] = Except.ok [("1000", c1Rec)] ∧
      ([("1000", c1Rec)] : List (String × MatchRecord)).length = 1 ∧
      countMatching c1Env [c1Tag, c1Tag] = 2 := by
  decide

/-- **C1, amended.**  For every document on which `get_results` succeeds
and whose date-matching nodes carry pairwise-distinct timestamps, the
returned collection has exactly one entry per matching node, and it is
empty when no node matches.  (The unamended claim fails only when two
matching nodes share a timestamp; see the counterexample.) -/
theorem C1_size (env : Env) (doc : List Tag) (od : List (String × MatchRecord))
    (h1 : get_results env doc = Except.ok od)
    (h2 : ((doc.filter (isMatch env)).map tagKey).Nodup) :
    od.length = countMatching env doc ∧
      (countMatching env doc = 0 → od = []) := by
  obtain ⟨krs, hmap, hod⟩ := get_results_ok h1
  have hf2 := mapExtract_forall2 hmap
  have hkeys : (doc.filter (isMatch env)).map tagKey = krs.map Prod.fst := by
    refine forall2_map_eq ?_ hf2
    intro a b hab
    obtain ⟨k, r⟩ := b
    have h3 := (extract_ok_inv hab).1
    simp [tagKey, h3]
  have hnodup : (krs.map Prod.fst).Nodup := hkeys ▸ h2
  have hkrs : od = krs := by
    rw [hod, odFold_append krs [] hnodup (by simp), List.nil_append]
  have hlen : od.length = countMatching env doc := by
    rw [hkrs, countMatching]
    exact hf2.length_eq.symm
  refine ⟨hlen, fun hz => ?_⟩
  have hzero : od.length = 0 := by rw [hlen, hz]
  exact List.length_eq_zero.mp hzero

/-- Witness for the amended C1 at a two-match document with distinct
timestamps. -/
theorem C1_size_witness :
    ([("1000", c1Rec), ("2000", c1Rec)] : List (String × MatchRecord)).length =
        countMatching c1Env [c1Tag, c1TagB] ∧
      (countMatching c1Env [c1Tag, c1TagB] = 0 →
        ([("1000", c1Rec), ("2000", c1Rec)] : List (String × MatchRecord)) = []) :=
  C1_size c1Env [c1Tag, c1TagB] [("1000", c1Rec), ("2000", c1Rec)]
    (by decide) (by decide)

/-- **C2.**  For a retained match tag whose raw maps text contains
`"bo"`, whose detail link is present and whose first and last score
tokens parse as integers, extraction succeeds and the record's maps
field is exactly `get_maps` applied to the link and the integer sum of
the two scores, that is the space-joined truncation of the detail
page's map list. -/
theorem C2_bo_series (env : Env) (t : Tag) (ts tok1 tok2 u : String)
    (s1 s2 : Int)
    (h1 : t.attrUnix = some ts)
    (h2 : (pySplit t.resultScore).head? = some tok1)
    (h3 : (pySplit t.resultScore).getLast? = some tok2)
    (h4 : pyInStr "bo" t.mapText = true)
    (h5 : t.href = some u)
    (h6 : pyInt tok1 = some s1) (h7 : pyInt tok2 = some s2) :
    extractRecord env t = Except.ok (ts,
      { team_one := pyStrip t.team1, team_one_score := tok1,
        team_two := pyStrip t.team2, team_two_score := tok2,
        event := t.eventName, maps := get_maps env u (s1 + s2) }) ∧
      get_maps env u (s1 + s2) =
        joinSpace (pySliceTo (env.mapsPage u) (s1 + s2)) := by
  constructor
  · simp [extractRecord, h1, h2, h3, h4, h5, h6, h7, Except.map]
  · rfl

/-- Scenario environment for the best-of branch: a detail page with four
map names. -/
def c2Env : Env :=
  { dayOf := fun _ => "12 October 2026", currentDate := "12 October 2026",
    mapsPage := fun _ => ["Mirage", "Inferno", "Nuke", "Train"] }

/-- Scenario tag: a best-of-three series won 2-1. -/
def c2Tag : Tag :=
  { name := "div", classes := ["result-con"], attrUnix := some "1000",
    team1 := "A", team2 := "B", resultScore := "2 - 1",
    eventName := "E", mapText := "bo3", href := some "/matches/7" }

/-- Witness for C2: the 2-1 series fetches the first three maps. -/
theorem C2_bo_series_witness :
    extractRecord c2Env c2Tag = Except.ok ("1000",
      { team_one := pyStrip c2Tag.team1, team_one_score := "2",
        team_two := pyStrip c2Tag.team2, team_two_score := "1",
        event := c2Tag.eventName,
        maps := get_maps c2Env "/matches/7" (2 + 1) }) ∧
      get_maps c2Env "/matches/7" (2 + 1) =
        joinSpace (pySliceTo (c2Env.mapsPage "/matches/7") (2 + 1)) :=
  C2_bo_series c2Env c2Tag "1000" "2" "1" "/matches/7" 2 1 (by decide)
    (by decide) (by decide) (by decide) (by decide) (by decide) (by decide)

/-- **C3.**  Whenever extraction succeeds, the record's team-one score is
the first whitespace-delimited token of the result-score blob and the
team-two score is the last. -/
theorem C3_score_split (env : Env) (t : Tag) (k : String) (r : MatchRecord)
    (tok1 tok2 : String)
    (h1 : extractRecord env t = Except.ok (k, r))
    (h2 : (pySplit t.resultScore).head? = some tok1)
    (h3 : (pySplit t.resultScore).getLast? = some tok2) :
    r.team_one_score = tok1 ∧ r.team_two_score = tok2 := by
  obtain ⟨-, -, -, h4, h5, -⟩ := extract_ok_inv h1
  rw [h2] at h4
  rw [h3] at h5
  exact ⟨(Option.some.inj h4).symm, (Option.some.inj h5).symm⟩

/-- Scenario environment for the score-splitting claims. -/
def c3Env : Env :=
  { dayOf := fun _ => "12 October 2026", currentDate := "12 October 2026",
    mapsPage := fun _ => [] }

/-- Scenario tag whose score blob is `"16 : 9"`. -/
def c3Tag : Tag :=
  { name := "div", classes := ["result-con"], attrUnix := some "1000",
    team1 := "A", team2 := "B", resultScore := "16 : 9",
    eventName := "E", mapText := "mrg", href := none }

/-- Record extracted from `c3Tag`. -/
def c3Rec : MatchRecord :=
  { team_one := "A", team_one_score := "16", team_two := "B",
    team_two_score := "9", event := "E", maps := "Mirage" }

/-- Witness for C3 on the blob `"16 : 9"`: the scores are `"16"` and
`"9"` despite the interior `":"` token. -/
theorem C3_score_split_witness :
    c3Rec.team_one_score = "16" ∧ c3Rec.team_two_score = "9" :=
  C3_score_split c3Env c3Tag "1000" c3Rec "16" "9" (by decide) (by decide)
    (by decide)

/-- **C4.**  Deserializing the serialized collection (`results_dict`,
modelled on the JSON tree) reproduces the collection that was
serialized: same keys, same field values, same order. -/
theorem C4_roundtrip (env : Env) (doc : List Tag)
    (od : List (String × MatchRecord))
    (h1 : get_results env doc = Except.ok od) (h2 : od ≠ []) :
    results_dict env doc = Except.ok (some od) := by
  simp only [results_dict, h1]
  rw [decode_encode (get_results_nodup h1)]

/-- Witness for C4 at a one-match document. -/
theorem C4_roundtrip_witness :
    results_dict c3Env [c1Tag] = Except.ok (some [("1000", c1Rec)]) :=
  C4_roundtrip c3Env [c1Tag] [("1000", c1Rec)] (by decide) (by decide)

/-- **C5.**  If a retained match tag's raw maps text lacks the substring
`"bo"` and is not a key of the abbreviation table, the whole run aborts
with an exception: `get_results` never returns a collection, not even
the records extracted before the failing match. -/
theorem C5_unknown_map_aborts (env : Env) (doc : List Tag) (t : Tag)
    (h1 : t ∈ doc) (h2 : isMatch env t = true)
    (h3 : pyInStr "bo" t.mapText = false)
    (h4 : mapsLookup t.mapText = none) :
    ∃ e, get_results env doc = Except.error e := by
  cases hg : get_results env doc with
  | error e => exact ⟨e, rfl⟩
  | ok od =>
    exfalso
    obtain ⟨krs, hmap, -⟩ := get_results_ok hg
    have hret : t ∈ doc.filter (isMatch env) := List.mem_filter.mpr ⟨h1, h2⟩
    obtain ⟨p, -, hp⟩ := forall2_mem_left (mapExtract_forall2 hmap) hret
    exact extract_unknown_not_ok h3 h4 p hp

/-- Scenario tag with an unknown maps code, after one good match. -/
def c5Tag : Tag :=
  { name := "div", classes := ["result-con"], attrUnix := some "2000",
    team1 := "C", team2 := "D", resultScore := "16 : 2",
    eventName := "E", mapText := "xyz", href := none }

/-- Witness for C5: the unknown code `"xyz"` aborts a run that had
already extracted one good record. -/
theorem C5_unknown_map_aborts_witness :
    ∃ e, get_results c3Env [c1Tag, c5Tag] = Except.error e :=
  C5_unknown_map_aborts c3Env [c1Tag, c5Tag] c5Tag (by decide) (by decide)
    (by decide) (by decide)

/-- **C6.**  For every map list and every count, `get_maps` returns the
first `count` entries joined by single spaces, and a count exceeding the
number of available entries yields all entries — truncation past the end
is a no-op, never an error. -/
theorem C6_truncation (env : Env) (u : String) (n : Nat) :
    get_maps env u (n : Int) = joinSpace ((env.mapsPage u).take n) ∧
      ((env.mapsPage u).length < n →
        get_maps env u (n : Int) = joinSpace (env.mapsPage u)) := by
  have hslice : pySliceTo (env.mapsPage u) (n : Int) = (env.mapsPage u).take n := by
    simp [pySliceTo]
  constructor
  · rw [get_maps, hslice]
  · intro hlt
    rw [get_maps, hslice, List.take_of_length_le (Nat.le_of_lt hlt)]

/-- Scenario environment for C6: a detail page with two map names. -/
def c6Env : Env :=
  { dayOf := fun _ => "12 October 2026", currentDate := "12 October 2026",
    mapsPage := fun _ => ["Mirage", "Dust2"] }

/-- Witness for C6: asking for five maps of a two-map page returns both
maps without error. -/
theorem C6_truncation_witness :
    get_maps c6Env "/m" ((5 : Nat) : Int) =
        joinSpace ((c6Env.mapsPage "/m").take 5) ∧
      get_maps c6Env "/m" ((5 : Nat) : Int) = joinSpace (c6Env.mapsPage "/m") :=
  ⟨(C6_truncation c6Env "/m" 5).1, (C6_truncation c6Env "/m" 5).2 (by decide)⟩

/-- Scenario environment for C7. -/
def c7Env : Env :=
  { dayOf := fun _ => "12 October 2026", currentDate := "12 October 2026",
    mapsPage := fun _ => [] }

/-- Scenario tag for C7: a plain single-map result. -/
def c7Tag : Tag :=
  { name := "div", classes := ["result-con"], attrUnix := some "1000",
    team1 := "A", team2 := "B", resultScore := "16 : 12",
    eventName := "E", mapText := "mrg", href := none }

/-- Record extracted from `c7Tag`. -/
def c7Rec : MatchRecord :=
  { team_one := "A", team_one_score := "16", team_two := "B",
    team_two_score := "12", event := "E", maps := "Mirage" }

/-- **C7, counterexample.**  The claim says the score fields are
integers and the timestamp key an integer.  The code stores the raw
`split()` tokens and the raw attribute value, all Python strings, so the
serialized form carries the JSON string `"16"`, not a JSON number. -/
theorem C7_counterexample :
    get_results c7Env [c7Tag] = Except.ok [("1000", c7Rec)] ∧
      ((jsonField (encodeResults [("1000", c7Rec)]) "1000").bind
          (fun j => jsonField j "team_one_score")).bind Json.asStr =
        some "16" ∧
      ((jsonField (encodeResults [("1000", c7Rec)]) "1000").bind
          (fun j => jsonField j "team_one_score")).map Json.isNum =
        some false ∧
      ((jsonField (encodeResults [("1000", c7Rec)]) "1000").bind
          (fun j => jsonField j "team_two_score")).map Json.isNum =
        some false := by
  refine ⟨by decide, rfl, rfl, rfl⟩

/-- **C7, amended.**  Every record of a successful run stores the score
fields as the raw first/last whitespace tokens of the score blob (Python
strings), keyed by the raw timestamp attribute string; the serialized
form carries both scores as JSON strings. -/
theorem C7_fields_are_strings (env : Env) (doc : List Tag)
    (od : List (String × MatchRecord)) (k : String) (r : MatchRecord)
    (h1 : get_results env doc = Except.ok od) (h2 : (k, r) ∈ od) :
    ∃ t, t ∈ doc ∧ isMatch env t = true ∧ t.attrUnix = some k ∧
      (pySplit t.resultScore).head? = some r.team_one_score ∧
      (pySplit t.resultScore).getLast? = some r.team_two_score ∧
      jsonField (encodeRecord r) "team_one_score" =
        some (Json.str r.team_one_score) ∧
      jsonField (encodeRecord r) "team_two_score" =
        some (Json.str r.team_two_score) := by
  obtain ⟨krs, hmap, hod⟩ := get_results_ok h1
  rw [hod] at h2
  have hmem : (k, r) ∈ krs := by
    rcases odFold_mem h2 with h3 | h3
    · exact absurd h3 (by simp)
    · exact h3
  obtain ⟨t, ht, hp⟩ := forall2_mem_right (mapExtract_forall2 hmap) hmem
  obtain ⟨ha, -, -, hh, hl, -⟩ := extract_ok_inv hp
  have hdoc := List.mem_filter.mp ht
  exact ⟨t, hdoc.1, hdoc.2, ha, hh, hl, rfl, rfl⟩

/-- Witness for the amended C7 at a one-match document. -/
theorem C7_fields_are_strings_witness :
    ∃ t, t ∈ [c7Tag] ∧ isMatch c7Env t = true ∧ t.attrUnix = some "1000" ∧
      (pySplit t.resultScore).head? = some c7Rec.team_one_score ∧
      (pySplit t.resultScore).getLast? = some c7Rec.team_two_score ∧
      jsonField (encodeRecord c7Rec) "team_one_score" =
        some (Json.str c7Rec.team_one_score) ∧
      jsonField (encodeRecord c7Rec) "team_two_score" =
        some (Json.str c7Rec.team_two_score) :=
  C7_fields_are_strings c7Env [c7Tag] [("1000", c7Rec)] "1000" c7Rec
    (by decide) (by decide)

/-- **C8.**  A successful run's collection lists the extracted entries
in the document order of the retained matches (not sorted by timestamp)
whenever their timestamps are distinct, and lookup by timestamp always
returns the record of the last retained match with that timestamp. -/
theorem C8_order (env : Env) (doc : List Tag)
    (od krs : List (String × MatchRecord))
    (h1 : get_results env doc = Except.ok od)
    (h2 : mapExtract env (doc.filter (isMatch env)) = Except.ok krs) :
    ((krs.map Prod.fst).Nodup → od = krs) ∧
      (∀ k, odLookup od k =
        (krs.reverse.find? (fun p => p.1 == k)).map Prod.snd) := by
  obtain ⟨krs2, hmap, hod⟩ := get_results_ok h1
  rw [hmap] at h2
  injection h2 with h2
  subst h2
  constructor
  · intro hnd
    rw [hod, odFold_append _ [] hnd (by simp), List.nil_append]
  · intro k
    rw [hod, odFold_lookup]
    cases hf : krs2.reverse.find? (fun p => p.1 == k) <;> simp [odLookup]

/-- Scenario tags for C8: two matches sharing a timestamp, with
different team-one names, in this document order. -/
def c8TagA : Tag :=
  { name := "div", classes := ["result-con"], attrUnix := some "1000",
    team1 := "First", team2 := "B", resultScore := "16 : 9",
    eventName := "E", mapText := "mrg", href := none }

/-- Second match of the C8 scenario, same timestamp as `c8TagA`. -/
def c8TagB : Tag :=
  { name := "div", classes := ["result-con"], attrUnix := some "1000",
    team1 := "Second", team2 := "B", resultScore := "2 : 16",
    eventName := "E", mapText := "nuke", href := none }

/-- Record extracted from `c8TagA`. -/
def c8RecA : MatchRecord :=
  { team_one := "First", team_one_score := "16", team_two := "B",
    team_two_score := "9", event := "E", maps := "Mirage" }

/-- Record extracted from `c8TagB`. -/
def c8RecB : MatchRecord :=
  { team_one := "Second", team_one_score := "2", team_two := "B",
    team_two_score := "16", event := "E", maps := "Nuke" }

/-- Witness for C8 at a duplicate-timestamp document: the stored record
under `"1000"` is the later match's. -/
theorem C8_order_witness :
    ((([("1000", c8RecA), ("1000", c8RecB)] : List (String × MatchRecord)).map
        Prod.fst).Nodup →
      ([("1000", c8RecB)] : List (String × MatchRecord)) =
        [("1000", c8RecA), ("1000", c8RecB)]) ∧
      (∀ k, odLookup [("1000", c8RecB)] k =
        (([("1000", c8RecA), ("1000", c8RecB)] :
            List (String × MatchRecord)).reverse.find?
          (fun p => p.1 == k)).map Prod.snd) :=
  C8_order c7Env [c8TagA, c8TagB] [("1000", c8RecB)]
    [("1000", c8RecA), ("1000", c8RecB)] (by decide) (by decide)

/-- **C9.**  On every tag that is not a `div` carrying the `result-con`
class, `check_match_date` returns `False` without touching the timestamp
attribute: the predicate never raises on such tags, even when the
attribute is absent. -/
theorem C9_filter_total (env : Env) (t : Tag)
    (h : ¬ (t.name = "div" ∧ "result-con" ∈ t.classes)) :
    check_match_date env t = Except.ok false := by
  have hb : (t.name == "div" && t.classes.contains "result-con") = false := by
    by_cases h1 : t.name = "div"
    · have h2 : "result-con" ∉ t.classes := fun hc => h ⟨h1, hc⟩
      simp [h1, h2]
    · simp [h1]
  rw [check_match_date, hb]
  rfl

/-- Scenario tag for C9: not a `div`, and without the timestamp
attribute. -/
def c9Tag : Tag :=
  { name := "span", classes := ["result-con"], attrUnix := none,
    team1 := "", team2 := "", resultScore := "", eventName := "",
    mapText := "", href := none }

/-- Witness for C9: the attribute-less non-div tag filters to `False`
with no exception. -/
theorem C9_filter_total_witness :
    check_match_date c7Env c9Tag = Except.ok false :=
  C9_filter_total c7Env c9Tag (by decide)

/-- **C10.**  When the result-score blob splits into exactly one
whitespace-delimited token, a successful extraction stores that same
token as both score fields, which are therefore equal. -/
theorem C10_single_token (env : Env) (t : Tag) (k : String) (r : MatchRecord)
    (tok : String)
    (h1 : pySplit t.resultScore = [tok])
    (h2 : extractRecord env t = Except.ok (k, r)) :
    r.team_one_score = tok ∧ r.team_two_score = tok ∧
      r.team_one_score = r.team_two_score := by
  obtain ⟨-, -, -, hh, hl, -⟩ := extract_ok_inv h2
  rw [h1] at hh hl
  simp only [List.head?_cons, Option.some.injEq] at hh
  simp only [List.getLast?_singleton, Option.some.injEq] at hl
  exact ⟨hh.symm, hl.symm, by rw [← hh, ← hl]⟩

/-- Scenario tag for C10: the score blob `"16-9"` has no interior
whitespace. -/
def c10Tag : Tag :=
  { name := "div", classes := ["result-con"], attrUnix := some "1000",
    team1 := "A", team2 := "B", resultScore := "16-9",
    eventName := "E", mapText := "mrg", href := none }

/-- Record extracted from `c10Tag`: both scores are the whole blob. -/
def c10Rec : MatchRecord :=
  { team_one := "A", team_one_score := "16-9", team_two := "B",
    team_two_score := "16-9", event := "E", maps := "Mirage" }

/-- Witness for C10 on the blob `"16-9"`. -/
theorem C10_single_token_witness :
    c10Rec.team_one_score = "16-9" ∧ c10Rec.team_two_score = "16-9" ∧
      c10Rec.team_one_score = c10Rec.team_two_score :=
  C10_single_token c7Env c10Tag "1000" c10Rec "16-9" (by decide) (by decide)

end HLTV
